import Mathlib

/-!
Shallow embedding of the `ovrlog` logging core (`Logging.cpp`): the repeated-message
aggregation manager (`RepeatedMessageManager`), the bounded output queue
(`OutputWorker`), and the channel-level configurator (`Configurator`), together with
proofs of the specified behavioural properties.

Strings from the C side are modelled as lists of byte values (`List Nat`);
`std::unordered_map`/`std::map` instances as association lists in iteration order;
`std::set<uint32_t>` instances as lists of hashes without duplicates.  Clock reads
(`GetCurrentLogTime` / `GetCurrentLogMillisecondTime`) are passed in explicitly as an
`Int` millisecond value.
-/

namespace ovrlog

/-- Severity levels, mirroring `enum class Level : uint32_t` (`Count` is the sentinel
enumerator). -/
inductive Level where
  | Disabled
  | Trace
  | Debug
  | Info
  | Warning
  | Error
  | Count
deriving DecidableEq, Repr

/-- Mirrors `enum class WriteOption`. -/
inductive WriteOption where
  | Default
  | DangerouslyIgnoreQueueLimit
deriving DecidableEq, Repr

/-- Mirrors `RepeatedMessageManager::HandleResult`. -/
inductive HandleResult where
  | Passed
  | Aggregated
deriving DecidableEq, Repr

/-- Modelled from the spec: the configuration knobs are fixed constants declared in
`Logging_Library.h`, which is not part of the repository snapshot ("queue size limit,
aggregation window (ms), number of occurrences printed individually before aggregating,
aggregation-count cap before forced mid-window flush, recent-message map target
capacity, hash prefix length"); they are carried here as explicit parameters. -/
structure LogConfig where
  messagePrefixLength : Nat
  maxDeferrableDetectionTimeMs : Int
  printedRepeatCount : Nat
  maxDeferredMessages : Nat
  recentMessageCount : Nat
  WorkQueueLimit : Nat
deriving DecidableEq, Repr

/-- Lookup of the first value bound to key `k` in an association list
(`std::unordered_map::find`; keys of a map are unique). -/
def findKey {α β : Type} [DecidableEq α] (k : α) : List (α × β) → Option β
  | [] => none
  | p :: rest => if p.1 = k then some p.2 else findKey k rest

/-- Remove the entry bound to key `k` (`erase` on a map keyed by `k`). -/
def eraseKey {α β : Type} [DecidableEq α] (k : α) (l : List (α × β)) : List (α × β) :=
  l.filter (fun p => p.1 != k)

/-- Map-style insertion `m[k] = v`: any existing binding of `k` is replaced. -/
def insertKey {α β : Type} [DecidableEq α] (k : α) (v : β) (l : List (α × β)) :
    List (α × β) :=
  (k, v) :: eraseKey k l

/-- In-place mutation of the value bound to `k` through an iterator
(`it->second = ...`). -/
def updateKey {α β : Type} [DecidableEq α] (k : α) (f : β → β) (l : List (α × β)) :
    List (α × β) :=
  l.map (fun p => if p.1 = k then (k, f p.2) else p)

/-- The keys of an association list. -/
def keysOf {α β : Type} (l : List (α × β)) : List α :=
  l.map Prod.fst

/-- Set-style insertion (`std::set::insert`): no duplicate is created. -/
def insertSet (k : Nat) (s : List Nat) : List Nat :=
  if k ∈ s then s else k :: s

/-- Set-style erase by value (`find` followed by `erase`). -/
def eraseSet (k : Nat) (s : List Nat) : List Nat :=
  s.filter (fun x => x != k)

/-- One iteration of the hash loop of `RepeatedMessageManager::GetHash`:
`hash += (hash << 1) + (hash << 4) + (hash << 7) + (hash << 8) + (hash << 24);
hash ^= (uint8_t)*p++;` on `uint32_t` arithmetic. -/
def fnvStep (hash c : Nat) : Nat :=
  ((hash + (hash * 2 + hash * 16 + hash * 128 + hash * 256 + hash * 16777216)) %
      4294967296) ^^^
    (c % 256)

/-- The `while (*p && (p < pEnd))` loop of `GetHash`: stops at a NUL byte or at the end
of the bounded prefix. -/
def getHashLoop : Nat → List Nat → Nat
  | hash, [] => hash
  | hash, c :: rest => if c = 0 then hash else getHashLoop (fnvStep hash c) rest

/-- `RepeatedMessageManager::GetHash`: FNV-style hash of the first
`messagePrefixLength` bytes of the string, seeded with `2166136261`. -/
def GetHash (messagePrefixLength : Nat) (p : List Nat) : Nat :=
  getHashLoop 2166136261 (p.take messagePrefixLength)

/-- `RepeatedMessageManager::GetLogMillisecondTimeDifference` (the `_WIN32` path, the
platform this code targets): calendar times are assumed to roll over at most one day. -/
def GetLogMillisecondTimeDifference (beginMs endMs : Int) : Int :=
  if beginMs ≤ endMs then endMs - beginMs else 86400000 + (endMs - beginMs)

/-- Entry of `RecentMessageMap`: a message seen once, with its arrival time. -/
structure RecentMessage where
  timeMs : Int
deriving DecidableEq, Repr

/-- Entry of `RepeatedMessageMap`.  The field layout is declared in the missing header;
the spec gives `{hash, subsystem, level, lastSeenTime, printedCount, aggregatedCount,
representativeText}` plus a first-seen time (the constructor is called with the current
time twice). -/
structure RepeatedMessage where
  subsystemName : List Nat
  messageLogLevel : Level
  stream : List Nat
  firstTimeMs : Int
  lastTimeMs : Int
  printedCount : Nat
  aggregatedCount : Nat
deriving DecidableEq, Repr

/-- The mutable state of `RepeatedMessageManager` (the recursive mutex itself is not
part of the sequential model). -/
structure RepeatedMessageManager where
  BusyInWrite : Bool
  RecentMessageMap : List (Nat × RecentMessage)
  RepeatedMessageMap : List (Nat × RepeatedMessage)
  RepeatedMessageExceptionSet : List Nat
  RepeatedMessageSubsystemExceptionSet : List Nat
deriving DecidableEq, Repr

/-- `RepeatedMessageManager::HandleMessage`.  `currentLogTimeMs` stands for the value
returned by `GetCurrentLogMillisecondTime()`. -/
def HandleMessage (cfg : LogConfig) (st : RepeatedMessageManager)
    (subsystemName : List Nat) (messageLogLevel : Level) (stream : List Nat)
    (currentLogTimeMs : Int) : HandleResult × RepeatedMessageManager :=
  if st.BusyInWrite then (HandleResult.Passed, st)
  else
    let prefixHash := GetHash cfg.messagePrefixLength stream
    if prefixHash ∈ st.RepeatedMessageExceptionSet then (HandleResult.Passed, st)
    else
      let subsystemNameHash := GetHash cfg.messagePrefixLength subsystemName
      if subsystemNameHash ∈ st.RepeatedMessageSubsystemExceptionSet then
        (HandleResult.Passed, st)
      else
        match findKey prefixHash st.RepeatedMessageMap with
        | some repeatedMessage =>
          if GetLogMillisecondTimeDifference repeatedMessage.lastTimeMs currentLogTimeMs <
              cfg.maxDeferrableDetectionTimeMs then
            if repeatedMessage.printedCount < cfg.printedRepeatCount then
              (HandleResult.Passed,
                { st with
                  RepeatedMessageMap :=
                    updateKey prefixHash
                      (fun r =>
                        { r with
                          lastTimeMs := currentLogTimeMs
                          printedCount := r.printedCount + 1 })
                      st.RepeatedMessageMap })
            else
              (HandleResult.Aggregated,
                { st with
                  RepeatedMessageMap :=
                    updateKey prefixHash
                      (fun r =>
                        { r with
                          lastTimeMs := currentLogTimeMs
                          aggregatedCount := r.aggregatedCount + 1
                          stream :=
                            if r.aggregatedCount + 1 ≥ cfg.maxDeferredMessages then
                              stream
                            else r.stream })
                      st.RepeatedMessageMap })
          else
            -- The stale entry is left for Poll to finalize.
            (HandleResult.Passed, st)
        | none =>
          match findKey prefixHash st.RecentMessageMap with
          | some _ =>
            (HandleResult.Passed,
              { st with
                RepeatedMessageMap :=
                  insertKey prefixHash
                    (RepeatedMessage.mk subsystemName messageLogLevel stream
                      currentLogTimeMs currentLogTimeMs 0 0)
                    st.RepeatedMessageMap
                RecentMessageMap := eraseKey prefixHash st.RecentMessageMap })
          | none =>
            (HandleResult.Passed,
              { st with
                RecentMessageMap :=
                  insertKey prefixHash (RecentMessage.mk currentLogTimeMs)
                    st.RecentMessageMap })

/-- The per-entry loop over `RepeatedMessageMap` inside `RepeatedMessageManager::Poll`:
expired entries are erased (queued for an aggregate print if any occurrences were
deferred); unexpired entries whose aggregated count reached the cap are queued for a
print, their aggregated count rolled into the printed count and reset.  Returns the
surviving map and `messagesToPrint` in collection order. -/
def pollRepeatedEntries (cfg : LogConfig) (currentLogTimeMs : Int) :
    List (Nat × RepeatedMessage) →
      List (Nat × RepeatedMessage) × List RepeatedMessage
  | [] => ([], [])
  | (h, repeatedMessage) :: rest =>
    let tail := pollRepeatedEntries cfg currentLogTimeMs rest
    if GetLogMillisecondTimeDifference repeatedMessage.lastTimeMs currentLogTimeMs >
        cfg.maxDeferrableDetectionTimeMs then
      (tail.1,
        if repeatedMessage.aggregatedCount ≠ 0 then repeatedMessage :: tail.2
        else tail.2)
    else
      if repeatedMessage.aggregatedCount ≥ cfg.maxDeferredMessages then
        ((h,
            { repeatedMessage with
              printedCount := repeatedMessage.printedCount + repeatedMessage.aggregatedCount
              aggregatedCount := 0 }) ::
            tail.1,
          repeatedMessage :: tail.2)
      else ((h, repeatedMessage) :: tail.1, tail.2)

/-- The lock-scoped portion of `RepeatedMessageManager::Poll`.  The recent-map pruning
collects iterators to the first `min(size, recentMessageCount * 3)` entries in
iteration order and then erases every collected iterator (the sort by age between the
two steps does not change which entries are erased), so in the list model the first
`recentMessageCount * 3` entries are dropped.  Returns the new state and the list of
repeated messages to print after the lock is released. -/
def Poll (cfg : LogConfig) (st : RepeatedMessageManager) (currentLogTimeMs : Int) :
    RepeatedMessageManager × List RepeatedMessage :=
  let recentPruned :=
    if st.RecentMessageMap.length > cfg.recentMessageCount * 2 then
      st.RecentMessageMap.drop (cfg.recentMessageCount * 3)
    else st.RecentMessageMap
  let polled := pollRepeatedEntries cfg currentLogTimeMs st.RepeatedMessageMap
  ({ st with RecentMessageMap := recentPruned, RepeatedMessageMap := polled.1 },
    polled.2)

/-- `RepeatedMessageManager::AddRepeatedMessageException`. -/
def AddRepeatedMessageException (cfg : LogConfig) (st : RepeatedMessageManager)
    (messagePfx : List Nat) : RepeatedMessageManager :=
  let prefixHash := GetHash cfg.messagePrefixLength messagePfx
  { st with
    RepeatedMessageExceptionSet := insertSet prefixHash st.RepeatedMessageExceptionSet }

/-- `RepeatedMessageManager::RemoveRepeatedMessageException`. -/
def RemoveRepeatedMessageException (cfg : LogConfig) (st : RepeatedMessageManager)
    (messagePfx : List Nat) : RepeatedMessageManager :=
  let prefixHash := GetHash cfg.messagePrefixLength messagePfx
  { st with
    RepeatedMessageExceptionSet := eraseSet prefixHash st.RepeatedMessageExceptionSet }

/-- `RepeatedMessageManager::AddRepeatedMessageSubsystemException`. -/
def AddRepeatedMessageSubsystemException (cfg : LogConfig)
    (st : RepeatedMessageManager) (subsystemName : List Nat) :
    RepeatedMessageManager :=
  let subsystemNameHash := GetHash cfg.messagePrefixLength subsystemName
  { st with
    RepeatedMessageSubsystemExceptionSet :=
      insertSet subsystemNameHash st.RepeatedMessageSubsystemExceptionSet }

/-- `RepeatedMessageManager::RemoveRepeatedMessageSubsytemException`.  The source looks
the hash up in `RepeatedMessageSubsystemExceptionSet` but compares the resulting
iterator against `RepeatedMessageExceptionSet.end()` (a different container, so the
comparison succeeds) and calls `RepeatedMessageExceptionSet.erase(it)`: the
subsystem-level set is never modified, and the erase lands in the message-level set,
modelled here as erasing the subsystem hash value from that set. -/
def RemoveRepeatedMessageSubsytemException (cfg : LogConfig)
    (st : RepeatedMessageManager) (subsystemName : List Nat) :
    RepeatedMessageManager :=
  let subsystemNameHash := GetHash cfg.messagePrefixLength subsystemName
  { st with
    RepeatedMessageExceptionSet :=
      eraseSet subsystemNameHash st.RepeatedMessageExceptionSet }

/-- A log record owned by the work queue (`OutputWorker::QueuedLogMessage`); the `Next`
pointer is subsumed by the list structure of the queue, and `FlushEvent` records
whether the message carries a flush completion signal. -/
structure QueuedLogMessage where
  SubsystemName : List Nat
  MessageLogLevel : Level
  Buffer : List Nat
  Time : Int
  FlushEvent : Bool
deriving DecidableEq, Repr

/-- An output sink (`OutputPlugin`): its stable unique name, plus an identity tag that
distinguishes the underlying `shared_ptr` instances. -/
structure OutputPlugin where
  UniquePluginName : List Nat
  pluginId : Nat
deriving DecidableEq, Repr

/-- The mutable state of `OutputWorker`.  `WorkQueue` holds the FIFO queue from
`WorkQueueHead` to `WorkQueueTail`; `LoggingThreadValid` models
`LoggingThread.IsValid()`. -/
structure OutputWorker where
  IsInDebugger : Bool
  Plugins : List OutputPlugin
  WorkQueue : List QueuedLogMessage
  WorkQueueSize : Nat
  WorkQueueOverrun : Nat
  LoggingThreadValid : Bool
  RepeatedMessageManagerInstance : RepeatedMessageManager
deriving DecidableEq, Repr

/-- Modelled from the spec: `WorkQueueAdd` is declared in `Logging_Library.h`, which is
not in the repository snapshot; the spec says the record is appended to the FIFO queue
and the live size counter incremented ("append the record, incrementing size"). -/
def WorkQueueAdd (w : OutputWorker) (msg : QueuedLogMessage) : OutputWorker :=
  { w with WorkQueue := w.WorkQueue ++ [msg], WorkQueueSize := w.WorkQueueSize + 1 }

/-- `OutputWorker::Write`.  `now` stands for the single clock read of the call (used
both for classification and for the queued record's timestamp).  The
debugger-immediate path (`FlushDbgViewLogImmediately`) writes to an external stream and
does not change worker state, so it does not appear in the state model; `relogged` only
feeds that path. -/
def Write (cfg : LogConfig) (w : OutputWorker) (subsystemName : List Nat)
    (messageLogLevel : Level) (stream : List Nat) (relogged : Bool)
    (option : WriteOption) (now : Int) : OutputWorker :=
  let handled :=
    HandleMessage cfg w.RepeatedMessageManagerInstance subsystemName messageLogLevel
      stream now
  let w := { w with RepeatedMessageManagerInstance := handled.2 }
  if handled.1 = HandleResult.Aggregated then w
  else
    if option ≠ WriteOption.DangerouslyIgnoreQueueLimit ∧
        w.WorkQueueSize ≥ cfg.WorkQueueLimit then
      { w with WorkQueueOverrun := w.WorkQueueOverrun + 1 }
    else
      WorkQueueAdd w
        (QueuedLogMessage.mk subsystemName messageLogLevel stream now false)

def loggingSubsystemNameStr : String := "Logging"

/-- The `"Logging"` subsystem name used for internal records. -/
def loggingSubsystemName : List Nat :=
  loggingSubsystemNameStr.data.map Char.toNat

def aggregatedPrefixHead : String := "[Aggregated "

def aggregatedPrefixTail : String := " times] "

/-- The bytes produced by `snprintf(prefixMessage, ..., "[Aggregated %d times] ",
repeatedMessage.aggregatedCount)`. -/
def aggregatePrefixBytes (aggregatedCount : Nat) : List Nat :=
  (aggregatedPrefixHead.data.map Char.toNat) ++
    ((Nat.toDigits 10 aggregatedCount).map Char.toNat) ++
    (aggregatedPrefixTail.data.map Char.toNat)

def lostMessagesHead : String := "Lost "

def lostMessagesTail : String :=
  " log messages due to queue overrun; try to reduce the amount of logging"

/-- The bytes produced by `snprintf(str, ..., "Lost %i log messages due to queue
overrun; try to reduce the amount of logging", lostCount)`. -/
def lostMessagesText (lostCount : Nat) : List Nat :=
  (lostMessagesHead.data.map Char.toNat) ++
    ((Nat.toDigits 10 lostCount).map Char.toNat) ++
    (lostMessagesTail.data.map Char.toNat)

/-- `RepeatedMessageManager::PrintDeferredAggregateMessage`: prepends the aggregate
prefix to the captured stream and routes the summary back through
`OutputWorker::Write` with `WriteOption::DangerouslyIgnoreQueueLimit`, with
`BusyInWrite` set for the duration of the call. -/
def PrintDeferredAggregateMessage (cfg : LogConfig) (w : OutputWorker)
    (repeatedMessage : RepeatedMessage) (now : Int) : OutputWorker :=
  let stream :=
    aggregatePrefixBytes repeatedMessage.aggregatedCount ++ repeatedMessage.stream
  let w :=
    { w with
      RepeatedMessageManagerInstance :=
        { w.RepeatedMessageManagerInstance with BusyInWrite := true } }
  let w :=
    Write cfg w repeatedMessage.subsystemName repeatedMessage.messageLogLevel stream
      false WriteOption.DangerouslyIgnoreQueueLimit now
  { w with
    RepeatedMessageManagerInstance :=
      { w.RepeatedMessageManagerInstance with BusyInWrite := false } }

/-- `RepeatedMessageManager::Poll(OutputWorker*)` seen from the worker: the lock-scoped
part (`Poll` above) followed by the out-of-lock printing of the collected messages, in
collection order. -/
def PollOutput (cfg : LogConfig) (w : OutputWorker) (currentLogTimeMs : Int) :
    OutputWorker :=
  let polled := Poll cfg w.RepeatedMessageManagerInstance currentLogTimeMs
  let w := { w with RepeatedMessageManagerInstance := polled.1 }
  polled.2.foldl
    (fun acc repeatedMessage =>
      PrintDeferredAggregateMessage cfg acc repeatedMessage currentLogTimeMs)
    w

/-- `OutputWorker::ProcessQueuedMessages`: polls the repeated-message manager (whose
summaries re-enter the queue through `Write`), detaches the whole batch while zeroing
the size and overrun counters, prepends one synthetic error record when messages were
lost, and returns the batch handed to the dispatch loop (flush-event records in the
batch only have their completion signal fired; all others are rendered to every
plugin). -/
def ProcessQueuedMessages (cfg : LogConfig) (w : OutputWorker)
    (currentLogTimeMs : Int) : OutputWorker × List QueuedLogMessage :=
  let w := PollOutput cfg w currentLogTimeMs
  let message := w.WorkQueue
  let lostCount := w.WorkQueueOverrun
  let w := { w with WorkQueue := [], WorkQueueSize := 0, WorkQueueOverrun := 0 }
  if message.isEmpty then (w, [])
  else
    if lostCount > 0 then
      (w,
        QueuedLogMessage.mk loggingSubsystemName Level.Error
            (lostMessagesText lostCount) currentLogTimeMs false ::
          message)
    else (w, message)

/-- `OutputWorker::Flush`.  Returns the new state together with a flag recording
whether `LOGGING_DEBUG_BREAK()` fired (the reported precondition violation when the
dispatch thread is not running).  The blocking wait on the flush event is a concurrency
effect outside this state model. -/
def Flush (w : OutputWorker) (now : Int) : OutputWorker × Bool :=
  if w.LoggingThreadValid = false then (w, true)
  else
    (WorkQueueAdd w
        (QueuedLogMessage.mk loggingSubsystemName Level.Info [] now true),
      false)

/-- The loop body of `OutputWorker::RemovePlugin`: erase the first registered plugin
whose unique name compares equal (`strcmp`), then stop. -/
def removeFirstByName (name : List Nat) : List OutputPlugin → List OutputPlugin
  | [] => []
  | existingPlugin :: rest =>
    if existingPlugin.UniquePluginName = name then rest
    else existingPlugin :: removeFirstByName name rest

/-- `OutputWorker::RemovePlugin` (a null `shared_ptr` is ignored). -/
def RemovePlugin (w : OutputWorker) (pluginToRemove : Option OutputPlugin) :
    OutputWorker :=
  match pluginToRemove with
  | none => w
  | some p => { w with Plugins := removeFirstByName p.UniquePluginName w.Plugins }

/-- `OutputWorker::AddPlugin`: remove any registered plugin with the same unique name,
then insert (the `std::set` is ordered by pointer, so the insertion position carries no
information; the model appends). -/
def AddPlugin (w : OutputWorker) (plugin : Option OutputPlugin) : OutputWorker :=
  match plugin with
  | none => w
  | some p =>
    let w := RemovePlugin w (some p)
    { w with Plugins := w.Plugins ++ [p] }

/-- A channel registry node (`ChannelNode`): the source stores pointers into the owning
`Channel`; the model stores the pointed-to values.  `NodeLevel` stands for
`*(channelNode->Level)` and `UserOverrodeMinimumOutputLevel` for
`*(channelNode->UserOverrodeMinimumOutputLevel)`. -/
structure ChannelNode where
  SubsystemName : List Nat
  NodeLevel : Level
  UserOverrodeMinimumOutputLevel : Bool
deriving DecidableEq, Repr

/-- A persistence plugin (`ConfiguratorPlugin`): `RestoreChannelLevel` consults a table
of saved per-channel levels. -/
structure ConfiguratorPlugin where
  SavedLevels : List (List Nat × Level)
deriving DecidableEq, Repr

/-- `ConfiguratorPlugin::RestoreChannelLevel(name, level&)`: overwrites `level` with
the saved value when one exists. -/
def ConfiguratorPlugin.RestoreChannelLevel (plugin : ConfiguratorPlugin)
    (channelName : List Nat) (level : Level) : Level :=
  match findKey channelName plugin.SavedLevels with
  | some saved => saved
  | none => level

/-- The state of `Configurator` together with the process-wide channel registry
(`ChannelNodeHead` list, in registration order). -/
structure Configurator where
  GlobalMinimumLogLevel : Level
  Plugin : Option ConfiguratorPlugin
  ChannelNodes : List ChannelNode
deriving DecidableEq, Repr

/-- `Configurator::SetGlobalMinimumLogLevel`: stores the new global default and walks
the registry assigning `*(channelNode->Level) = level` to every node. -/
def SetGlobalMinimumLogLevel (c : Configurator) (level : Level) : Configurator :=
  { c with
    GlobalMinimumLogLevel := level
    ChannelNodes :=
      c.ChannelNodes.map (fun channelNode => { channelNode with NodeLevel := level }) }

/-- `Configurator::RestoreChannelLogLevel(ChannelNode*)`: starts from the global
default, lets the plugin overwrite it, and assigns it to the node unless the owner
overrode the level. -/
def RestoreChannelLogLevel (c : Configurator) (channelNode : ChannelNode) :
    ChannelNode :=
  let level := c.GlobalMinimumLogLevel
  let level :=
    match c.Plugin with
    | some plugin => plugin.RestoreChannelLevel channelNode.SubsystemName level
    | none => level
  if channelNode.UserOverrodeMinimumOutputLevel = false then
    { channelNode with NodeLevel := level }
  else channelNode

/-- The registered plugins whose unique name equals `name`. -/
def pluginsWithName (name : List Nat) (l : List OutputPlugin) : List OutputPlugin :=
  l.filter (fun q => q.UniquePluginName = name)

/-- The spec invariant "a given hash exists in at most one of
`{RecentMessageMap, RepeatedMessageMap}` at any instant". -/
def MapsDisjoint (st : RepeatedMessageManager) : Prop :=
  ∀ h ∈ keysOf st.RecentMessageMap, h ∉ keysOf st.RepeatedMessageMap

instance (st : RepeatedMessageManager) : Decidable (MapsDisjoint st) :=
  inferInstanceAs
    (Decidable (∀ h ∈ keysOf st.RecentMessageMap, h ∉ keysOf st.RepeatedMessageMap))

/-- A sequence of `HandleMessage` calls for one subsystem: each occurrence is a pair of
its clock reading and its message text; returns the classification of each occurrence
in order, and the final manager state. -/
def handleRun (cfg : LogConfig) (subsystemName : List Nat) (messageLogLevel : Level) :
    List (Int × List Nat) → RepeatedMessageManager →
      List HandleResult × RepeatedMessageManager
  | [], st => ([], st)
  | occ :: rest, st =>
    let first := HandleMessage cfg st subsystemName messageLogLevel occ.2 occ.1
    let tail := handleRun cfg subsystemName messageLogLevel rest first.2
    (first.1 :: tail.1, tail.2)

/-- Each occurrence of the list falls within the aggregation window of its predecessor
(the first one within the window of `lastTimeMs`). -/
def chainWithinOk (cfg : LogConfig) : Int → List (Int × List Nat) → Bool
  | _, [] => true
  | lastTimeMs, occ :: rest =>
    decide
        (GetLogMillisecondTimeDifference lastTimeMs occ.1 <
          cfg.maxDeferrableDetectionTimeMs) &&
      chainWithinOk cfg occ.1 rest

/-- A sequence of `Write` calls with `WriteOption::Default` for one subsystem: each
record is its level, text and clock reading. -/
def writeRun (cfg : LogConfig) (subsystemName : List Nat)
    (records : List (Level × List Nat × Int)) (w : OutputWorker) : OutputWorker :=
  match records with
  | [] => w
  | r :: rest =>
    writeRun cfg subsystemName rest
      (Write cfg w subsystemName r.1 r.2.1 false WriteOption.Default r.2.2)

/-! Concrete inputs used to witness the theorems below. -/

def emptyManager : RepeatedMessageManager :=
  RepeatedMessageManager.mk false [] [] [] []

def configuratorC2 : Configurator :=
  Configurator.mk Level.Debug none [ChannelNode.mk [65] Level.Error true]

def channelNodeC2 : ChannelNode :=
  ChannelNode.mk [66] Level.Warning true

def logConfigC3 : LogConfig :=
  LogConfig.mk 8 5000 4 100 1 100

def stC3a : RepeatedMessageManager :=
  RepeatedMessageManager.mk false
    [(1, RecentMessage.mk 1), (2, RecentMessage.mk 2), (3, RecentMessage.mk 3),
      (4, RecentMessage.mk 4), (5, RecentMessage.mk 5), (6, RecentMessage.mk 6),
      (7, RecentMessage.mk 7)]
    [] [] []

def stC3b : RepeatedMessageManager :=
  RepeatedMessageManager.mk false
    [(1, RecentMessage.mk 1), (2, RecentMessage.mk 2), (3, RecentMessage.mk 3)]
    [] [] []

def logConfigC4 : LogConfig :=
  LogConfig.mk 8 5000 4 100 4 2

def subsystemC4 : List Nat := [65]

def managerC4 : RepeatedMessageManager :=
  RepeatedMessageManager.mk false [] [] []
    [GetHash logConfigC4.messagePrefixLength subsystemC4]

def workerC4 : OutputWorker :=
  OutputWorker.mk false [] [] 0 0 true managerC4

def recordsC4 : List (Level × List Nat × Int) :=
  [(Level.Info, [1], 10), (Level.Warning, [2], 11), (Level.Error, [3], 12)]

def logConfigC1 : LogConfig :=
  LogConfig.mk 8 5000 1 2 4 100

def hashC1 : Nat := GetHash logConfigC1.messagePrefixLength [66]

def entryC1 : RepeatedMessage :=
  RepeatedMessage.mk [65] Level.Info [66] 5 5 0 0

def managerC1 : RepeatedMessageManager :=
  RepeatedMessageManager.mk false [] [(hashC1, entryC1)] [] []

def occurrencesC1 : List (Int × List Nat) :=
  [(10, [66]), (20, [66])]

def logConfigC5 : LogConfig :=
  LogConfig.mk 8 5000 4 100 4 10

def hashC5 : Nat := GetHash logConfigC5.messagePrefixLength [66, 67]

def entryC5 : RepeatedMessage :=
  RepeatedMessage.mk [65] Level.Warning [66, 67] 5 5 4 3

def managerC5 : RepeatedMessageManager :=
  RepeatedMessageManager.mk false [] [(hashC5, entryC5)] [] []

def workerC5 : OutputWorker :=
  OutputWorker.mk false [] [QueuedLogMessage.mk [70] Level.Info [71] 6 false] 1 0 true
    managerC5

def logConfigC6 : LogConfig :=
  LogConfig.mk 8 5000 4 100 4 100

def managerC6 : RepeatedMessageManager :=
  RepeatedMessageManager.mk false [(5, RecentMessage.mk 1)]
    [(9, RepeatedMessage.mk [65] Level.Info [66] 2 2 1 1)] [3] [4]

def workerC7 : OutputWorker :=
  OutputWorker.mk false [] [QueuedLogMessage.mk [70] Level.Info [71] 6 false] 1 2 false
    emptyManager

def workerC8 : OutputWorker :=
  OutputWorker.mk false [OutputPlugin.mk [80] 0] [] 0 0 true emptyManager

def pluginsC8 : List OutputPlugin :=
  [OutputPlugin.mk [80] 1, OutputPlugin.mk [80] 2]

def workerC10 : OutputWorker :=
  OutputWorker.mk false [] [] 5 0 true emptyManager

/-! Basic lemmas about the model. -/

theorem mem_insertSet_self (k : Nat) (s : List Nat) : k ∈ insertSet k s := by
  by_cases h : k ∈ s <;> simp [insertSet, h]

theorem HandleMessage_passed_of_subsystemException (cfg : LogConfig)
    (st : RepeatedMessageManager) (subsystemName : List Nat)
    (messageLogLevel : Level) (stream : List Nat) (now : Int)
    (hsub :
      GetHash cfg.messagePrefixLength subsystemName ∈
        st.RepeatedMessageSubsystemExceptionSet) :
    HandleMessage cfg st subsystemName messageLogLevel stream now =
      (HandleResult.Passed, st) := by
  by_cases hb : st.BusyInWrite
  · simp [HandleMessage, hb]
  · by_cases hm :
        GetHash cfg.messagePrefixLength stream ∈ st.RepeatedMessageExceptionSet
    · simp [HandleMessage, hb, hm]
    · simp [HandleMessage, hb, hm, hsub]

theorem HandleMessage_of_busy (cfg : LogConfig) (st : RepeatedMessageManager)
    (subsystemName : List Nat) (messageLogLevel : Level) (stream : List Nat)
    (now : Int) (hb : st.BusyInWrite = true) :
    HandleMessage cfg st subsystemName messageLogLevel stream now =
      (HandleResult.Passed, st) := by
  simp [HandleMessage, hb]

/-! Theorems for the claims. -/

/-- C7: calling `Flush` while the dispatch thread is not running is reported
(`LOGGING_DEBUG_BREAK`) and is a no-op: the worker state — queue contents, size and
overrun counters included — is returned unchanged and no sentinel is enqueued. -/
theorem C7_flush_stopped_noop (w : OutputWorker) (now : Int)
    (hstopped : w.LoggingThreadValid = false) :
    Flush w now = (w, true) := by
  simp [Flush, hstopped]

theorem C7_flush_stopped_noop_witness :
    Flush workerC7 5 = (workerC7, true) :=
  C7_flush_stopped_noop workerC7 5 rfl

/-- C10: while the dispatch thread is running, `Flush` appends its flush-event sentinel
to the work queue unconditionally — there is no queue-limit check, the overrun counter
is untouched, and the sentinel is never dropped, whatever the current queue size. -/
theorem C10_flush_ignores_queue_limit (w : OutputWorker) (now : Int)
    (hrunning : w.LoggingThreadValid = true) :
    (Flush w now).1.WorkQueue =
        w.WorkQueue ++ [QueuedLogMessage.mk loggingSubsystemName Level.Info [] now true] ∧
      (Flush w now).1.WorkQueueSize = w.WorkQueueSize + 1 ∧
      (Flush w now).1.WorkQueueOverrun = w.WorkQueueOverrun ∧
      (Flush w now).2 = false := by
  simp [Flush, hrunning, WorkQueueAdd]

theorem C10_flush_ignores_queue_limit_witness :
    (Flush workerC10 7).1.WorkQueue =
        workerC10.WorkQueue ++
          [QueuedLogMessage.mk loggingSubsystemName Level.Info [] 7 true] ∧
      (Flush workerC10 7).1.WorkQueueSize = workerC10.WorkQueueSize + 1 ∧
      (Flush workerC10 7).1.WorkQueueOverrun = workerC10.WorkQueueOverrun ∧
      (Flush workerC10 7).2 = false :=
  C10_flush_ignores_queue_limit workerC10 7 rfl

/-- C2 (counterexample): a registered channel whose owner overrode its level (flag set,
level `Error`) does not keep its level across `SetGlobalMinimumLogLevel Level.Info`:
the code overwrites every registered channel, overridden or not. -/
theorem C2_set_global_counterexample :
    configuratorC2.ChannelNodes = [ChannelNode.mk [65] Level.Error true] ∧
      (SetGlobalMinimumLogLevel configuratorC2 Level.Info).ChannelNodes =
        [ChannelNode.mk [65] Level.Info true] ∧
      Level.Info ≠ Level.Error := by
  decide

/-- C2 (amended): `SetGlobalMinimumLogLevel(level)` updates the global default and sets
the level of every registered channel to `level`, including channels whose owner
overrode them — only the names and override flags are preserved; the override flag
protects a channel's level only in `RestoreChannelLogLevel(ChannelNode*)`. -/
theorem C2_set_global_amended (c : Configurator) (level : Level)
    (channelNode : ChannelNode)
    (hoverrode : channelNode.UserOverrodeMinimumOutputLevel = true) :
    (SetGlobalMinimumLogLevel c level).GlobalMinimumLogLevel = level ∧
      (SetGlobalMinimumLogLevel c level).ChannelNodes.map ChannelNode.NodeLevel =
        List.replicate c.ChannelNodes.length level ∧
      (SetGlobalMinimumLogLevel c level).ChannelNodes.map ChannelNode.SubsystemName =
        c.ChannelNodes.map ChannelNode.SubsystemName ∧
      (SetGlobalMinimumLogLevel c level).ChannelNodes.map
          ChannelNode.UserOverrodeMinimumOutputLevel =
        c.ChannelNodes.map ChannelNode.UserOverrodeMinimumOutputLevel ∧
      RestoreChannelLogLevel c channelNode = channelNode := by
  refine ⟨rfl, ?_, ?_, ?_, ?_⟩
  · simp [SetGlobalMinimumLogLevel, List.map_map, Function.comp_def,
      List.eq_replicate_iff]
  · simp [SetGlobalMinimumLogLevel, List.map_map, Function.comp_def]
  · simp [SetGlobalMinimumLogLevel, List.map_map, Function.comp_def]
  · simp [RestoreChannelLogLevel, hoverrode]

theorem C2_set_global_amended_witness :
    (SetGlobalMinimumLogLevel configuratorC2 Level.Info).GlobalMinimumLogLevel =
        Level.Info ∧
      (SetGlobalMinimumLogLevel configuratorC2 Level.Info).ChannelNodes.map
          ChannelNode.NodeLevel =
        List.replicate configuratorC2.ChannelNodes.length Level.Info ∧
      (SetGlobalMinimumLogLevel configuratorC2 Level.Info).ChannelNodes.map
          ChannelNode.SubsystemName =
        configuratorC2.ChannelNodes.map ChannelNode.SubsystemName ∧
      (SetGlobalMinimumLogLevel configuratorC2 Level.Info).ChannelNodes.map
          ChannelNode.UserOverrodeMinimumOutputLevel =
        configuratorC2.ChannelNodes.map ChannelNode.UserOverrodeMinimumOutputLevel ∧
      RestoreChannelLogLevel configuratorC2 channelNodeC2 = channelNodeC2 :=
  C2_set_global_amended configuratorC2 Level.Info channelNodeC2 rfl

/-- C3 (code bug): with target capacity 1, a recent map holding 7 never-repeating
entries still holds 4 entries after a `Poll` cycle — more than the target capacity —
because the pruning erases every collected iterator (the first `3 * capacity` entries)
instead of the oldest `size - capacity`; and with 3 entries the map is emptied
entirely, so the most recently seen entry is not retained either. -/
theorem C3_recent_prune_code_bug :
    (stC3a.RecentMessageMap.length > logConfigC3.recentMessageCount * 2 ∧
        (Poll logConfigC3 stC3a 100).1.RecentMessageMap.length = 4 ∧
        ¬(Poll logConfigC3 stC3a 100).1.RecentMessageMap.length ≤
            logConfigC3.recentMessageCount) ∧
      stC3b.RecentMessageMap.length > logConfigC3.recentMessageCount * 2 ∧
        (7, RecentMessage.mk 7) ∈ stC3a.RecentMessageMap ∧
        (Poll logConfigC3 stC3b 100).1.RecentMessageMap = [] := by
  decide

/-- C9: `AddRepeatedMessageSubsystemException` followed by
`RemoveRepeatedMessageSubsytemException` for the same subsystem leaves the subsystem's
hash in the subsystem-level exception set (the remove searches the subsystem set but
erases from the message-level set), so every subsequent message of that subsystem is
still classified as pass-through, with the manager state untouched. -/
theorem C9_subsystem_exception_remove (cfg : LogConfig)
    (st : RepeatedMessageManager) (subsystemName : List Nat)
    (messageLogLevel : Level) (stream : List Nat) (now : Int) :
    GetHash cfg.messagePrefixLength subsystemName ∈
        (RemoveRepeatedMessageSubsytemException cfg
            (AddRepeatedMessageSubsystemException cfg st subsystemName)
            subsystemName).RepeatedMessageSubsystemExceptionSet ∧
      HandleMessage cfg
          (RemoveRepeatedMessageSubsytemException cfg
            (AddRepeatedMessageSubsystemException cfg st subsystemName)
            subsystemName)
          subsystemName messageLogLevel stream now =
        (HandleResult.Passed,
          RemoveRepeatedMessageSubsytemException cfg
            (AddRepeatedMessageSubsystemException cfg st subsystemName)
            subsystemName) := by
  have hmem :
      GetHash cfg.messagePrefixLength subsystemName ∈
        (RemoveRepeatedMessageSubsytemException cfg
            (AddRepeatedMessageSubsystemException cfg st subsystemName)
            subsystemName).RepeatedMessageSubsystemExceptionSet := by
    show GetHash cfg.messagePrefixLength subsystemName ∈
      insertSet (GetHash cfg.messagePrefixLength subsystemName)
        st.RepeatedMessageSubsystemExceptionSet
    exact mem_insertSet_self _ _
  exact ⟨hmem, HandleMessage_passed_of_subsystemException _ _ _ _ _ _ hmem⟩

theorem pluginsWithName_append (name : List Nat) (l1 l2 : List OutputPlugin) :
    pluginsWithName name (l1 ++ l2) =
      pluginsWithName name l1 ++ pluginsWithName name l2 := by
  simp [pluginsWithName, List.filter_append]

theorem pluginsWithName_removeFirstByName (name : List Nat)
    (l : List OutputPlugin) (hcount : (pluginsWithName name l).length ≤ 1) :
    pluginsWithName name (removeFirstByName name l) = [] := by
  induction l with
  | nil => simp [pluginsWithName, removeFirstByName]
  | cons q rest ih =>
    by_cases hq : q.UniquePluginName = name
    · have hrest : (pluginsWithName name rest).length = 0 := by
        have h1 := hcount
        simp [pluginsWithName, hq] at h1
        simpa [pluginsWithName] using h1
      rw [removeFirstByName, if_pos hq]
      exact List.length_eq_zero.mp hrest
    · have hcount' : (pluginsWithName name rest).length ≤ 1 := by
        simpa [pluginsWithName, hq] using hcount
      rw [removeFirstByName, if_neg hq]
      simpa [pluginsWithName, hq] using ih hcount'

theorem removeFirstByName_append_of_none (name : List Nat)
    (l1 l2 : List OutputPlugin) (hnone : pluginsWithName name l1 = []) :
    removeFirstByName name (l1 ++ l2) = l1 ++ removeFirstByName name l2 := by
  induction l1 with
  | nil => simp
  | cons q rest ih =>
    have hq : ¬q.UniquePluginName = name := by
      intro hq
      simp [pluginsWithName, hq] at hnone
    have hrest : pluginsWithName name rest = [] := by
      simpa [pluginsWithName, hq] using hnone
    simp [removeFirstByName, hq, ih hrest]

theorem foldl_AddPlugin_pluginsWithName (pname : List Nat) :
    ∀ (qs : List OutputPlugin) (w : OutputWorker),
      (pluginsWithName pname w.Plugins).length ≤ 1 →
      (∀ q ∈ qs, q.UniquePluginName = pname) →
      qs ≠ [] →
      pluginsWithName pname
          ((qs.foldl (fun acc q => AddPlugin acc (some q)) w).Plugins) =
        [qs.getLastD (OutputPlugin.mk [] 0)]
  | [], _, _, _, hne => absurd rfl hne
  | q :: rest, w, hcount, hnames, _ => by
    have hq : q.UniquePluginName = pname := hnames q (List.mem_cons_self q rest)
    have hplug :
        ((AddPlugin w (some q)).Plugins) =
          removeFirstByName q.UniquePluginName w.Plugins ++ [q] := rfl
    have hfiltered :
        pluginsWithName pname ((AddPlugin w (some q)).Plugins) = [q] := by
      rw [hplug, pluginsWithName_append, hq,
        pluginsWithName_removeFirstByName pname w.Plugins hcount]
      simp [pluginsWithName, hq]
    cases rest with
    | nil =>
      simpa [List.foldl] using hfiltered
    | cons r rest' =>
      have hcount' :
          (pluginsWithName pname ((AddPlugin w (some q)).Plugins)).length ≤ 1 := by
        rw [hfiltered]; simp
      have hnames' : ∀ p ∈ r :: rest', p.UniquePluginName = pname := fun p hp =>
        hnames p (List.mem_cons_of_mem q hp)
      have htail :=
        foldl_AddPlugin_pluginsWithName pname (r :: rest') (AddPlugin w (some q))
          hcount' hnames' (by simp)
      simpa [List.foldl, List.getLastD] using htail

/-- C8: starting from a worker with at most one sink registered under a name, adding
any non-empty sequence of sinks carrying that unique name via `AddPlugin` leaves
exactly one sink with that name registered — the most recently added one — and two
consecutive `AddPlugin` calls with same-named sinks are equivalent to the latter call
alone. -/
theorem C8_idempotent_registration (w : OutputWorker) (pname : List Nat)
    (qs : List OutputPlugin) (q1 q2 : OutputPlugin)
    (hcount : (pluginsWithName pname w.Plugins).length ≤ 1)
    (hqs : ∀ q ∈ qs, q.UniquePluginName = pname) (hne : qs ≠ [])
    (hq1 : q1.UniquePluginName = pname) (hq2 : q2.UniquePluginName = pname) :
    pluginsWithName pname
        ((qs.foldl (fun acc q => AddPlugin acc (some q)) w).Plugins) =
      [qs.getLastD (OutputPlugin.mk [] 0)] ∧
    AddPlugin (AddPlugin w (some q1)) (some q2) = AddPlugin w (some q2) := by
  refine ⟨foldl_AddPlugin_pluginsWithName pname qs w hcount hqs hne, ?_⟩
  have hnone : pluginsWithName pname (removeFirstByName pname w.Plugins) = [] :=
    pluginsWithName_removeFirstByName pname w.Plugins hcount
  have hq1none :
      removeFirstByName q2.UniquePluginName
          (removeFirstByName q1.UniquePluginName w.Plugins ++ [q1]) =
        removeFirstByName q1.UniquePluginName w.Plugins := by
    rw [hq1, hq2, removeFirstByName_append_of_none pname _ _ hnone]
    simp [removeFirstByName, hq1]
  show
    ({ w with
        Plugins :=
          removeFirstByName q2.UniquePluginName
              (removeFirstByName q1.UniquePluginName w.Plugins ++ [q1]) ++
            [q2] } : OutputWorker) =
      { w with Plugins := removeFirstByName q2.UniquePluginName w.Plugins ++ [q2] }
  rw [hq1none, hq1, hq2]

theorem C8_idempotent_registration_witness :
    pluginsWithName [80]
        ((pluginsC8.foldl (fun acc q => AddPlugin acc (some q)) workerC8).Plugins) =
      [pluginsC8.getLastD (OutputPlugin.mk [] 0)] ∧
    AddPlugin (AddPlugin workerC8 (some (OutputPlugin.mk [80] 1)))
        (some (OutputPlugin.mk [80] 2)) =
      AddPlugin workerC8 (some (OutputPlugin.mk [80] 2)) :=
  C8_idempotent_registration workerC8 [80] pluginsC8 (OutputPlugin.mk [80] 1)
    (OutputPlugin.mk [80] 2) (by decide) (by decide) (by decide) rfl rfl

theorem keysOf_updateKey {α β : Type} [DecidableEq α] (k : α) (f : β → β)
    (l : List (α × β)) : keysOf (updateKey k f l) = keysOf l := by
  induction l with
  | nil => rfl
  | cons p rest ih =>
    show (if p.1 = k then (k, f p.2) else p).1 :: keysOf (updateKey k f rest) =
      p.1 :: keysOf rest
    rw [ih]
    by_cases hp : p.1 = k
    · rw [if_pos hp, hp]
    · rw [if_neg hp]

theorem mem_keysOf_eraseKey {α β : Type} [DecidableEq α] (k x : α)
    (l : List (α × β)) : x ∈ keysOf (eraseKey k l) ↔ x ∈ keysOf l ∧ x ≠ k := by
  constructor
  · intro h
    simp only [keysOf, eraseKey, List.mem_map, List.mem_filter, bne_iff_ne] at h
    obtain ⟨p, ⟨hp, hne⟩, rfl⟩ := h
    exact ⟨List.mem_map.mpr ⟨p, hp, rfl⟩, hne⟩
  · rintro ⟨h, hne⟩
    simp only [keysOf, List.mem_map] at h
    obtain ⟨p, hp, rfl⟩ := h
    exact List.mem_map.mpr ⟨p, List.mem_filter.mpr ⟨hp, bne_iff_ne.mpr hne⟩, rfl⟩

theorem mem_keysOf_insertKey {α β : Type} [DecidableEq α] (k x : α) (v : β)
    (l : List (α × β)) :
    x ∈ keysOf (insertKey k v l) ↔ x = k ∨ (x ∈ keysOf l ∧ x ≠ k) := by
  simp only [insertKey, keysOf, List.map_cons, List.mem_cons]
  exact or_congr Iff.rfl (mem_keysOf_eraseKey k x l)

theorem findKey_eq_none_iff {α β : Type} [DecidableEq α] (k : α)
    (l : List (α × β)) : findKey k l = none ↔ k ∉ keysOf l := by
  induction l with
  | nil => simp [findKey, keysOf]
  | cons p rest ih =>
    by_cases hp : p.1 = k
    · simp [findKey, keysOf, hp]
    · have hk : ¬k = p.1 := fun h => hp h.symm
      simp [findKey, keysOf, hp, hk, ih]

theorem mem_keysOf_of_mem_drop {α β : Type} (n : Nat) (l : List (α × β)) (x : α)
    (h : x ∈ keysOf (l.drop n)) : x ∈ keysOf l := by
  simp only [keysOf, List.mem_map] at h ⊢
  obtain ⟨p, hp, rfl⟩ := h
  exact ⟨p, List.mem_of_mem_drop hp, rfl⟩

theorem mem_keysOf_pollRepeatedEntries (cfg : LogConfig) (t : Int) :
    ∀ (l : List (Nat × RepeatedMessage)) (x : Nat),
      x ∈ keysOf (pollRepeatedEntries cfg t l).1 → x ∈ keysOf l
  | [], x, h => by simp [pollRepeatedEntries, keysOf] at h
  | (k, e) :: rest, x, h => by
    rw [pollRepeatedEntries] at h
    by_cases h1 :
        GetLogMillisecondTimeDifference e.lastTimeMs t >
          cfg.maxDeferrableDetectionTimeMs
    · rw [if_pos h1] at h
      exact List.mem_cons_of_mem _ (mem_keysOf_pollRepeatedEntries cfg t rest x h)
    · rw [if_neg h1] at h
      by_cases h2 : e.aggregatedCount ≥ cfg.maxDeferredMessages
      · rw [if_pos h2] at h
        have h' : x = k ∨ x ∈ keysOf (pollRepeatedEntries cfg t rest).1 := by
          simpa [keysOf] using h
        rcases h' with rfl | hx
        · simp [keysOf]
        · exact
            List.mem_cons_of_mem _ (mem_keysOf_pollRepeatedEntries cfg t rest x hx)
      · rw [if_neg h2] at h
        have h' : x = k ∨ x ∈ keysOf (pollRepeatedEntries cfg t rest).1 := by
          simpa [keysOf] using h
        rcases h' with rfl | hx
        · simp [keysOf]
        · exact
            List.mem_cons_of_mem _ (mem_keysOf_pollRepeatedEntries cfg t rest x hx)

theorem MapsDisjoint_Poll (cfg : LogConfig) (st : RepeatedMessageManager)
    (now : Int) (hdisj : MapsDisjoint st) : MapsDisjoint (Poll cfg st now).1 := by
  intro h hmem hcon
  have hrep : h ∈ keysOf st.RepeatedMessageMap :=
    mem_keysOf_pollRepeatedEntries cfg now st.RepeatedMessageMap h hcon
  have hrec : h ∈ keysOf st.RecentMessageMap := by
    by_cases hlen : st.RecentMessageMap.length > cfg.recentMessageCount * 2
    · have hmem' :
          h ∈ keysOf (st.RecentMessageMap.drop (cfg.recentMessageCount * 3)) := by
        simpa [Poll, hlen] using hmem
      exact mem_keysOf_of_mem_drop _ _ _ hmem'
    · simpa [Poll, hlen] using hmem
  exact hdisj h hrec hrep

theorem MapsDisjoint_of_eq (st st' : RepeatedMessageManager)
    (hrec : st'.RecentMessageMap = st.RecentMessageMap)
    (hkeys : keysOf st'.RepeatedMessageMap = keysOf st.RepeatedMessageMap)
    (hdisj : MapsDisjoint st) : MapsDisjoint st' := by
  intro h hmem
  rw [hkeys]
  exact hdisj h (hrec ▸ hmem)

theorem MapsDisjoint_HandleMessage (cfg : LogConfig) (st : RepeatedMessageManager)
    (subsystemName : List Nat) (messageLogLevel : Level) (stream : List Nat)
    (now : Int) (hdisj : MapsDisjoint st) :
    MapsDisjoint (HandleMessage cfg st subsystemName messageLogLevel stream now).2 := by
  by_cases hb : st.BusyInWrite
  · simpa [HandleMessage, hb] using hdisj
  by_cases hm : GetHash cfg.messagePrefixLength stream ∈ st.RepeatedMessageExceptionSet
  · simpa [HandleMessage, hb, hm] using hdisj
  by_cases hs :
      GetHash cfg.messagePrefixLength subsystemName ∈
        st.RepeatedMessageSubsystemExceptionSet
  · simpa [HandleMessage, hb, hm, hs] using hdisj
  cases hrep :
      findKey (GetHash cfg.messagePrefixLength stream) st.RepeatedMessageMap with
  | some repeatedMessage =>
    by_cases hwin :
        GetLogMillisecondTimeDifference repeatedMessage.lastTimeMs now <
          cfg.maxDeferrableDetectionTimeMs
    · by_cases hp : repeatedMessage.printedCount < cfg.printedRepeatCount
      · refine MapsDisjoint_of_eq st _ ?_ ?_ hdisj
        · simp [HandleMessage, hb, hm, hs, hrep, hwin, hp]
        · simp [HandleMessage, hb, hm, hs, hrep, hwin, hp, keysOf_updateKey]
      · refine MapsDisjoint_of_eq st _ ?_ ?_ hdisj
        · simp [HandleMessage, hb, hm, hs, hrep, hwin, hp]
        · simp [HandleMessage, hb, hm, hs, hrep, hwin, hp, keysOf_updateKey]
    · simpa [HandleMessage, hb, hm, hs, hrep, hwin] using hdisj
  | none =>
    cases hrec :
        findKey (GetHash cfg.messagePrefixLength stream) st.RecentMessageMap with
    | some recentMessage =>
      have hstate :
          (HandleMessage cfg st subsystemName messageLogLevel stream now).2 =
            { st with
              RepeatedMessageMap :=
                insertKey (GetHash cfg.messagePrefixLength stream)
                  (RepeatedMessage.mk subsystemName messageLogLevel stream now now
                    0 0)
                  st.RepeatedMessageMap
              RecentMessageMap :=
                eraseKey (GetHash cfg.messagePrefixLength stream)
                  st.RecentMessageMap } := by
        simp [HandleMessage, hb, hm, hs, hrep, hrec]
      rw [hstate]
      intro h hmem hcon
      have hmem' := (mem_keysOf_eraseKey _ _ _).mp hmem
      rcases (mem_keysOf_insertKey _ _ _ _).mp hcon with heq | ⟨hmem2, _⟩
      · exact hmem'.2 heq
      · exact hdisj h hmem'.1 hmem2
    | none =>
      have hstate :
          (HandleMessage cfg st subsystemName messageLogLevel stream now).2 =
            { st with
              RecentMessageMap :=
                insertKey (GetHash cfg.messagePrefixLength stream)
                  (RecentMessage.mk now) st.RecentMessageMap } := by
        simp [HandleMessage, hb, hm, hs, hrep, hrec]
      rw [hstate]
      intro h hmem
      rcases (mem_keysOf_insertKey _ _ _ _).mp hmem with heq | ⟨hmem', _⟩
      · subst heq
        exact (findKey_eq_none_iff _ _).mp hrep
      · exact hdisj h hmem'

/-- C6: the invariant "a given prefix hash is present in at most one of the
recent-message map and the repeated-message map" is preserved by every operation of
`RepeatedMessageManager`: `HandleMessage` (promotion erases the hash from the recent
map in the same step it inserts into the repeated map), `Poll`, and the four exception
set operations. -/
theorem C6_maps_disjoint_invariant (cfg : LogConfig) (st : RepeatedMessageManager)
    (subsystemName messagePfx stream : List Nat) (messageLogLevel : Level)
    (now pollNow : Int) (hdisj : MapsDisjoint st) :
    MapsDisjoint (HandleMessage cfg st subsystemName messageLogLevel stream now).2 ∧
      MapsDisjoint (Poll cfg st pollNow).1 ∧
      MapsDisjoint (AddRepeatedMessageException cfg st messagePfx) ∧
      MapsDisjoint (RemoveRepeatedMessageException cfg st messagePfx) ∧
      MapsDisjoint (AddRepeatedMessageSubsystemException cfg st subsystemName) ∧
      MapsDisjoint (RemoveRepeatedMessageSubsytemException cfg st subsystemName) :=
  ⟨MapsDisjoint_HandleMessage cfg st subsystemName messageLogLevel stream now hdisj,
    MapsDisjoint_Poll cfg st pollNow hdisj, hdisj, hdisj, hdisj, hdisj⟩

theorem C6_maps_disjoint_invariant_witness :
    MapsDisjoint
        (HandleMessage logConfigC6 managerC6 [65] Level.Info [66] 30).2 ∧
      MapsDisjoint (Poll logConfigC6 managerC6 40).1 ∧
      MapsDisjoint (AddRepeatedMessageException logConfigC6 managerC6 [67]) ∧
      MapsDisjoint (RemoveRepeatedMessageException logConfigC6 managerC6 [67]) ∧
      MapsDisjoint (AddRepeatedMessageSubsystemException logConfigC6 managerC6 [65]) ∧
      MapsDisjoint
        (RemoveRepeatedMessageSubsytemException logConfigC6 managerC6 [65]) :=
  C6_maps_disjoint_invariant logConfigC6 managerC6 [65] [67] [66] Level.Info 30 40
    (by decide)

theorem Write_default_of_subsystemException (cfg : LogConfig) (w : OutputWorker)
    (subsystemName : List Nat) (messageLogLevel : Level) (stream : List Nat)
    (now : Int)
    (hsub :
      GetHash cfg.messagePrefixLength subsystemName ∈
        w.RepeatedMessageManagerInstance.RepeatedMessageSubsystemExceptionSet) :
    Write cfg w subsystemName messageLogLevel stream false WriteOption.Default now =
      if w.WorkQueueSize ≥ cfg.WorkQueueLimit then
        { w with WorkQueueOverrun := w.WorkQueueOverrun + 1 }
      else
        { w with
          WorkQueue :=
            w.WorkQueue ++
              [QueuedLogMessage.mk subsystemName messageLogLevel stream now false]
          WorkQueueSize := w.WorkQueueSize + 1 } := by
  have hpassed :=
    HandleMessage_passed_of_subsystemException cfg w.RepeatedMessageManagerInstance
      subsystemName messageLogLevel stream now hsub
  simp [Write, hpassed, WorkQueueAdd]

theorem writeRun_characterization (cfg : LogConfig) (subsystemName : List Nat) :
    ∀ (records : List (Level × List Nat × Int)) (w : OutputWorker),
      GetHash cfg.messagePrefixLength subsystemName ∈
        w.RepeatedMessageManagerInstance.RepeatedMessageSubsystemExceptionSet →
      (writeRun cfg subsystemName records w).WorkQueue =
          w.WorkQueue ++
            ((records.take (cfg.WorkQueueLimit - w.WorkQueueSize)).map
              (fun r => QueuedLogMessage.mk subsystemName r.1 r.2.1 r.2.2 false)) ∧
        (writeRun cfg subsystemName records w).WorkQueueSize =
          w.WorkQueueSize +
            min records.length (cfg.WorkQueueLimit - w.WorkQueueSize) ∧
        (writeRun cfg subsystemName records w).WorkQueueOverrun =
          w.WorkQueueOverrun +
            (records.length - (cfg.WorkQueueLimit - w.WorkQueueSize)) ∧
        (writeRun cfg subsystemName records w).RepeatedMessageManagerInstance =
          w.RepeatedMessageManagerInstance
  | [], w, _ => by simp [writeRun]
  | r :: rest, w, hsub => by
    rw [writeRun, Write_default_of_subsystemException cfg w _ _ _ _ hsub]
    by_cases hfull : w.WorkQueueSize ≥ cfg.WorkQueueLimit
    · rw [if_pos hfull]
      have hz : cfg.WorkQueueLimit - w.WorkQueueSize = 0 := by omega
      have ih :=
        writeRun_characterization cfg subsystemName rest
          { w with WorkQueueOverrun := w.WorkQueueOverrun + 1 } hsub
      refine ⟨?_, ?_, ?_, ?_⟩
      · rw [ih.1]; simp [hz]
      · rw [ih.2.1]; simp [hz]
      · rw [ih.2.2.1]; simp [hz]; omega
      · exact ih.2.2.2
    · rw [if_neg hfull]
      have hpos : 0 < cfg.WorkQueueLimit - w.WorkQueueSize := by omega
      have ih :=
        writeRun_characterization cfg subsystemName rest
          { w with
            WorkQueue :=
              w.WorkQueue ++
                [QueuedLogMessage.mk subsystemName r.1 r.2.1 r.2.2 false]
            WorkQueueSize := w.WorkQueueSize + 1 }
          hsub
      have htake :
          (cfg.WorkQueueLimit - w.WorkQueueSize) =
            (cfg.WorkQueueLimit - (w.WorkQueueSize + 1)) + 1 := by omega
      refine ⟨?_, ?_, ?_, ?_⟩
      · rw [ih.1]
        simp only [htake, List.take_succ_cons, List.map_cons, List.append_assoc,
          List.cons_append, List.nil_append]
      · rw [ih.2.1]
        simp only [List.length_cons]
        omega
      · rw [ih.2.2.1]
        simp only [List.length_cons]
        omega
      · exact ih.2.2.2

theorem ProcessQueuedMessages_of_empty_repeated (cfg : LogConfig)
    (w : OutputWorker) (now : Int)
    (hmap : w.RepeatedMessageManagerInstance.RepeatedMessageMap = [])
    (hne : w.WorkQueue ≠ []) (hlost : 0 < w.WorkQueueOverrun) :
    (ProcessQueuedMessages cfg w now).1.WorkQueue = [] ∧
      (ProcessQueuedMessages cfg w now).1.WorkQueueSize = 0 ∧
      (ProcessQueuedMessages cfg w now).1.WorkQueueOverrun = 0 ∧
      (ProcessQueuedMessages cfg w now).2 =
        QueuedLogMessage.mk loggingSubsystemName Level.Error
            (lostMessagesText w.WorkQueueOverrun) now false ::
          w.WorkQueue := by
  have hpoll :
      PollOutput cfg w now =
        { w with
          RepeatedMessageManagerInstance :=
            (Poll cfg w.RepeatedMessageManagerInstance now).1 } := by
    simp [PollOutput, Poll, hmap, pollRepeatedEntries]
  simp [ProcessQueuedMessages, hpoll, hne, hlost]

/-- C4: with a queue limit `limit ≥ 1`, submitting `limit + m` pass-through records
(`m ≥ 1`) through `Write` with `WriteOption::Default` and no intervening drain enqueues
exactly the first `limit` of them, counts exactly `m` in the overrun counter with
nothing enqueued for those `m`, and the next dispatch drain zeroes the queue counters
and hands over a batch headed by exactly one synthetic `Error`-level record reporting
the drop count `m`, followed by the enqueued records.  The records are routed through a
subsystem registered in the exception set so that each one is classified pass-through
regardless of repetition. -/
theorem C4_overrun_accounting (cfg : LogConfig) (subsystemName : List Nat)
    (records : List (Level × List Nat × Int)) (m : Nat) (w0 : OutputWorker)
    (dispatchNow : Int) (hlimit : 1 ≤ cfg.WorkQueueLimit) (hm : 1 ≤ m)
    (hlen : records.length = cfg.WorkQueueLimit + m)
    (hsub :
      GetHash cfg.messagePrefixLength subsystemName ∈
        w0.RepeatedMessageManagerInstance.RepeatedMessageSubsystemExceptionSet)
    (hmap : w0.RepeatedMessageManagerInstance.RepeatedMessageMap = [])
    (hqueue : w0.WorkQueue = []) (hsize : w0.WorkQueueSize = 0)
    (hover : w0.WorkQueueOverrun = 0) :
    (writeRun cfg subsystemName records w0).WorkQueue =
        (records.take cfg.WorkQueueLimit).map
          (fun r => QueuedLogMessage.mk subsystemName r.1 r.2.1 r.2.2 false) ∧
      (writeRun cfg subsystemName records w0).WorkQueueSize = cfg.WorkQueueLimit ∧
      (writeRun cfg subsystemName records w0).WorkQueueOverrun = m ∧
      (ProcessQueuedMessages cfg (writeRun cfg subsystemName records w0)
            dispatchNow).1.WorkQueue = [] ∧
      (ProcessQueuedMessages cfg (writeRun cfg subsystemName records w0)
            dispatchNow).1.WorkQueueSize = 0 ∧
      (ProcessQueuedMessages cfg (writeRun cfg subsystemName records w0)
            dispatchNow).1.WorkQueueOverrun = 0 ∧
      (ProcessQueuedMessages cfg (writeRun cfg subsystemName records w0)
            dispatchNow).2 =
        QueuedLogMessage.mk loggingSubsystemName Level.Error (lostMessagesText m)
            dispatchNow false ::
          (records.take cfg.WorkQueueLimit).map
            (fun r => QueuedLogMessage.mk subsystemName r.1 r.2.1 r.2.2 false) := by
  have hrun := writeRun_characterization cfg subsystemName records w0 hsub
  have hq :
      (writeRun cfg subsystemName records w0).WorkQueue =
        (records.take cfg.WorkQueueLimit).map
          (fun r => QueuedLogMessage.mk subsystemName r.1 r.2.1 r.2.2 false) := by
    rw [hrun.1, hqueue, hsize]
    simp
  have hs : (writeRun cfg subsystemName records w0).WorkQueueSize =
      cfg.WorkQueueLimit := by
    rw [hrun.2.1, hsize, hlen]
    omega
  have ho : (writeRun cfg subsystemName records w0).WorkQueueOverrun = m := by
    rw [hrun.2.2.1, hover, hlen, hsize]
    omega
  have hmap' :
      (writeRun cfg subsystemName records
            w0).RepeatedMessageManagerInstance.RepeatedMessageMap = [] := by
    rw [hrun.2.2.2]
    exact hmap
  have hne : (writeRun cfg subsystemName records w0).WorkQueue ≠ [] := by
    rw [hq]
    intro hcon
    have htake : records.take cfg.WorkQueueLimit = [] := List.map_eq_nil_iff.mp hcon
    have hlen' : (records.take cfg.WorkQueueLimit).length = cfg.WorkQueueLimit := by
      rw [List.length_take]
      omega
    rw [htake] at hlen'
    simp at hlen'
    omega
  have hlost : 0 < (writeRun cfg subsystemName records w0).WorkQueueOverrun := by
    rw [ho]; omega
  have hpq :=
    ProcessQueuedMessages_of_empty_repeated cfg
      (writeRun cfg subsystemName records w0) dispatchNow hmap' hne hlost
  refine ⟨hq, hs, ho, hpq.1, hpq.2.1, hpq.2.2.1, ?_⟩
  rw [hpq.2.2.2, ho, hq]

theorem C4_overrun_accounting_witness :
    (writeRun logConfigC4 subsystemC4 recordsC4 workerC4).WorkQueue =
        (recordsC4.take logConfigC4.WorkQueueLimit).map
          (fun r => QueuedLogMessage.mk subsystemC4 r.1 r.2.1 r.2.2 false) ∧
      (writeRun logConfigC4 subsystemC4 recordsC4 workerC4).WorkQueueSize =
        logConfigC4.WorkQueueLimit ∧
      (writeRun logConfigC4 subsystemC4 recordsC4 workerC4).WorkQueueOverrun = 1 ∧
      (ProcessQueuedMessages logConfigC4
            (writeRun logConfigC4 subsystemC4 recordsC4 workerC4) 50).1.WorkQueue =
        [] ∧
      (ProcessQueuedMessages logConfigC4
            (writeRun logConfigC4 subsystemC4 recordsC4 workerC4)
            50).1.WorkQueueSize = 0 ∧
      (ProcessQueuedMessages logConfigC4
            (writeRun logConfigC4 subsystemC4 recordsC4 workerC4)
            50).1.WorkQueueOverrun = 0 ∧
      (ProcessQueuedMessages logConfigC4
            (writeRun logConfigC4 subsystemC4 recordsC4 workerC4) 50).2 =
        QueuedLogMessage.mk loggingSubsystemName Level.Error (lostMessagesText 1) 50
            false ::
          (recordsC4.take logConfigC4.WorkQueueLimit).map
            (fun r => QueuedLogMessage.mk subsystemC4 r.1 r.2.1 r.2.2 false) :=
  C4_overrun_accounting logConfigC4 subsystemC4 recordsC4 1 workerC4 50 (by decide)
    (by decide) (by decide) (by decide) rfl rfl rfl rfl

theorem HandleMessage_repeated_singleton_step (cfg : LogConfig)
    (st : RepeatedMessageManager) (subsystemName : List Nat)
    (messageLogLevel : Level) (s : List Nat) (t : Int) (h : Nat)
    (e : RepeatedMessage) (hbusy : st.BusyInWrite = false)
    (hmap : st.RepeatedMessageMap = [(h, e)])
    (hs : GetHash cfg.messagePrefixLength s = h)
    (hmsg : h ∉ st.RepeatedMessageExceptionSet)
    (hsub :
      GetHash cfg.messagePrefixLength subsystemName ∉
        st.RepeatedMessageSubsystemExceptionSet)
    (hwin :
      GetLogMillisecondTimeDifference e.lastTimeMs t <
        cfg.maxDeferrableDetectionTimeMs) :
    HandleMessage cfg st subsystemName messageLogLevel s t =
      if e.printedCount < cfg.printedRepeatCount then
        (HandleResult.Passed,
          { st with
            RepeatedMessageMap :=
              [(h, { e with lastTimeMs := t, printedCount := e.printedCount + 1 })] })
      else
        (HandleResult.Aggregated,
          { st with
            RepeatedMessageMap :=
              [(h,
                { e with
                  lastTimeMs := t
                  aggregatedCount := e.aggregatedCount + 1
                  stream :=
                    if e.aggregatedCount + 1 ≥ cfg.maxDeferredMessages then s
                    else e.stream })] }) := by
  have hfind :
      findKey (GetHash cfg.messagePrefixLength s) st.RepeatedMessageMap = some e := by
    rw [hs, hmap]
    simp [findKey]
  by_cases hp : e.printedCount < cfg.printedRepeatCount
  · rw [if_pos hp]
    simp [HandleMessage, hbusy, hs, hmsg, hsub, findKey, hwin, hp, hmap, updateKey]
  · rw [if_neg hp]
    simp [HandleMessage, hbusy, hs, hmsg, hsub, findKey, hwin, hp, hmap, updateKey]

theorem handleRun_repeated_singleton (cfg : LogConfig) (subsystemName : List Nat)
    (messageLogLevel : Level) :
    ∀ (occs : List (Int × List Nat)) (st : RepeatedMessageManager) (h : Nat)
      (e : RepeatedMessage),
      st.BusyInWrite = false →
      st.RepeatedMessageMap = [(h, e)] →
      h ∉ st.RepeatedMessageExceptionSet →
      GetHash cfg.messagePrefixLength subsystemName ∉
        st.RepeatedMessageSubsystemExceptionSet →
      (∀ o ∈ occs, GetHash cfg.messagePrefixLength o.2 = h) →
      chainWithinOk cfg e.lastTimeMs occs = true →
      ∃ e' : RepeatedMessage,
        handleRun cfg subsystemName messageLogLevel occs st =
            (List.replicate
                  (min occs.length (cfg.printedRepeatCount - e.printedCount))
                  HandleResult.Passed ++
                List.replicate
                  (occs.length - (cfg.printedRepeatCount - e.printedCount))
                  HandleResult.Aggregated,
              { st with RepeatedMessageMap := [(h, e')] }) ∧
          e'.printedCount =
              e.printedCount +
                min occs.length (cfg.printedRepeatCount - e.printedCount) ∧
          e'.aggregatedCount =
              e.aggregatedCount +
                (occs.length - (cfg.printedRepeatCount - e.printedCount)) ∧
          e'.lastTimeMs = (occs.map Prod.fst).getLastD e.lastTimeMs ∧
          e'.subsystemName = e.subsystemName ∧
          e'.messageLogLevel = e.messageLogLevel
  | [], st, h, e, _, hmap, _, _, _, _ => by
    refine ⟨e, ?_, by simp, by simp, rfl, rfl, rfl⟩
    rw [handleRun, ← hmap]
    simp
  | (t, s) :: rest, st, h, e, hbusy, hmap, hmsg, hsub, hhash, hchain => by
    have hchain' :
        GetLogMillisecondTimeDifference e.lastTimeMs t <
            cfg.maxDeferrableDetectionTimeMs ∧
          chainWithinOk cfg t rest = true := by
      rw [chainWithinOk, Bool.and_eq_true, decide_eq_true_eq] at hchain
      exact hchain
    have hs : GetHash cfg.messagePrefixLength s = h :=
      hhash (t, s) (List.mem_cons_self _ _)
    have hstep :=
      HandleMessage_repeated_singleton_step cfg st subsystemName messageLogLevel s t
        h e hbusy hmap hs hmsg hsub hchain'.1
    have hhash' : ∀ o ∈ rest, GetHash cfg.messagePrefixLength o.2 = h := fun o ho =>
      hhash o (List.mem_cons_of_mem _ ho)
    by_cases hp : e.printedCount < cfg.printedRepeatCount
    · rw [if_pos hp] at hstep
      have ih :=
        handleRun_repeated_singleton cfg subsystemName messageLogLevel rest
          { st with
            RepeatedMessageMap :=
              [(h, { e with lastTimeMs := t, printedCount := e.printedCount + 1 })] }
          h { e with lastTimeMs := t, printedCount := e.printedCount + 1 } hbusy rfl
          hmsg hsub hhash' hchain'.2
      obtain ⟨e', heq, hprint, hagg, hlast, hname, hlvl⟩ := ih
      refine ⟨e', ?_, by simp at hprint ⊢; omega, by simp at hagg ⊢; omega, ?_,
        hname, hlvl⟩
      · rw [handleRun, hstep, heq]
        have hmin :
            min ((t, s) :: rest).length
                (cfg.printedRepeatCount - e.printedCount) =
              min rest.length (cfg.printedRepeatCount - (e.printedCount + 1)) + 1 := by
          simp only [List.length_cons]
          omega
        have hsub' :
            ((t, s) :: rest).length - (cfg.printedRepeatCount - e.printedCount) =
              rest.length - (cfg.printedRepeatCount - (e.printedCount + 1)) := by
          simp only [List.length_cons]
          omega
        rw [hmin, hsub', List.replicate_succ]
        rfl
      · rw [List.map_cons, List.getLastD_cons]
        exact hlast
    · rw [if_neg hp] at hstep
      have ih :=
        handleRun_repeated_singleton cfg subsystemName messageLogLevel rest
          { st with
            RepeatedMessageMap :=
              [(h,
                { e with
                  lastTimeMs := t
                  aggregatedCount := e.aggregatedCount + 1
                  stream :=
                    if e.aggregatedCount + 1 ≥ cfg.maxDeferredMessages then s
                    else e.stream })] }
          h
          { e with
            lastTimeMs := t
            aggregatedCount := e.aggregatedCount + 1
            stream :=
              if e.aggregatedCount + 1 ≥ cfg.maxDeferredMessages then s
              else e.stream }
          hbusy rfl hmsg hsub hhash' hchain'.2
      obtain ⟨e', heq, hprint, hagg, hlast, hname, hlvl⟩ := ih
      refine ⟨e', ?_, by simp at hprint ⊢; omega, by simp at hagg ⊢; omega, ?_,
        hname, hlvl⟩
      · rw [handleRun, hstep, heq]
        have hz : cfg.printedRepeatCount - e.printedCount = 0 := by omega
        simp [hz, List.replicate_succ]
      · rw [List.map_cons, List.getLastD_cons]
        exact hlast

theorem Poll_singleton_expired (cfg : LogConfig) (st : RepeatedMessageManager)
    (h : Nat) (e : RepeatedMessage) (t : Int)
    (hmap : st.RepeatedMessageMap = [(h, e)])
    (hrec : ¬st.RecentMessageMap.length > cfg.recentMessageCount * 2)
    (hexp :
      GetLogMillisecondTimeDifference e.lastTimeMs t >
        cfg.maxDeferrableDetectionTimeMs)
    (hagg : e.aggregatedCount ≠ 0) :
    Poll cfg st t = ({ st with RepeatedMessageMap := [] }, [e]) := by
  simp [Poll, hmap, hrec, pollRepeatedEntries, hexp, hagg]

theorem Poll_singleton_capped (cfg : LogConfig) (st : RepeatedMessageManager)
    (h : Nat) (e : RepeatedMessage) (t : Int)
    (hmap : st.RepeatedMessageMap = [(h, e)])
    (hrec : ¬st.RecentMessageMap.length > cfg.recentMessageCount * 2)
    (hnexp :
      ¬GetLogMillisecondTimeDifference e.lastTimeMs t >
        cfg.maxDeferrableDetectionTimeMs)
    (hcap : e.aggregatedCount ≥ cfg.maxDeferredMessages) :
    Poll cfg st t =
      ({ st with
          RepeatedMessageMap :=
            [(h,
              { e with
                printedCount := e.printedCount + e.aggregatedCount
                aggregatedCount := 0 })] },
        [e]) := by
  simp [Poll, hmap, hrec, pollRepeatedEntries, hnexp, hcap]

/-- C5: for a repeated-message entry whose aggregation window has expired with a
non-zero aggregated count, the poll cycle emits exactly one final summary record —
carrying the entry's subsystem and level, and a body that is the most recent captured
text prefixed with `"[Aggregated <n> times] "` where `n` is the aggregated count —
appended to the work queue through the limit-ignoring `Write` path, and removes the
entry from the repeated-message map. -/
theorem C5_final_aggregate_summary (cfg : LogConfig) (w : OutputWorker) (h : Nat)
    (e : RepeatedMessage) (t : Int)
    (hmap : w.RepeatedMessageManagerInstance.RepeatedMessageMap = [(h, e)])
    (hrec :
      ¬w.RepeatedMessageManagerInstance.RecentMessageMap.length >
        cfg.recentMessageCount * 2)
    (hexp :
      GetLogMillisecondTimeDifference e.lastTimeMs t >
        cfg.maxDeferrableDetectionTimeMs)
    (hagg : e.aggregatedCount ≠ 0) :
    (PollOutput cfg w t).WorkQueue =
        w.WorkQueue ++
          [QueuedLogMessage.mk e.subsystemName e.messageLogLevel
            (aggregatePrefixBytes e.aggregatedCount ++ e.stream) t false] ∧
      (PollOutput cfg w t).WorkQueueSize = w.WorkQueueSize + 1 ∧
      (PollOutput cfg w t).WorkQueueOverrun = w.WorkQueueOverrun ∧
      (PollOutput cfg w t).RepeatedMessageManagerInstance.RepeatedMessageMap = [] ∧
      (PollOutput cfg w t).RepeatedMessageManagerInstance.BusyInWrite = false := by
  have hpoll :=
    Poll_singleton_expired cfg w.RepeatedMessageManagerInstance h e t hmap hrec hexp
      hagg
  simp [PollOutput, hpoll, PrintDeferredAggregateMessage, Write, HandleMessage,
    WorkQueueAdd]

theorem C5_final_aggregate_summary_witness :
    (PollOutput logConfigC5 workerC5 99999).WorkQueue =
        workerC5.WorkQueue ++
          [QueuedLogMessage.mk entryC5.subsystemName entryC5.messageLogLevel
            (aggregatePrefixBytes entryC5.aggregatedCount ++ entryC5.stream) 99999
            false] ∧
      (PollOutput logConfigC5 workerC5 99999).WorkQueueSize =
        workerC5.WorkQueueSize + 1 ∧
      (PollOutput logConfigC5 workerC5 99999).WorkQueueOverrun =
        workerC5.WorkQueueOverrun ∧
      (PollOutput logConfigC5 workerC5
          99999).RepeatedMessageManagerInstance.RepeatedMessageMap = [] ∧
      (PollOutput logConfigC5 workerC5
          99999).RepeatedMessageManagerInstance.BusyInWrite = false :=
  C5_final_aggregate_summary logConfigC5 workerC5 hashC5 entryC5 99999 rfl
    (by decide) (by decide) (by decide)

/-- C1: for a freshly promoted repeated-message entry (zero counts) whose hash recurs
`printedRepeatCount + k` times within the aggregation window, `HandleMessage`
classifies exactly the first `printedRepeatCount` occurrences as pass-through
(incrementing the printed count each time) and the remaining `k` as aggregated
(incrementing the aggregated count); a `Poll` after the window expires emits exactly
one aggregate summary carrying count `k` and removes the entry, while a `Poll` within
the window once `k` has reached `maxDeferredMessages` emits the summary immediately,
rolls the aggregated count into the printed count, and resets the aggregated count
without removing the entry. -/
theorem C1_aggregation_lifecycle (cfg : LogConfig) (subsystemName : List Nat)
    (messageLogLevel : Level) (occs : List (Int × List Nat))
    (st : RepeatedMessageManager) (h : Nat) (e : RepeatedMessage) (k : Nat)
    (hbusy : st.BusyInWrite = false) (hmap : st.RepeatedMessageMap = [(h, e)])
    (hmsg : h ∉ st.RepeatedMessageExceptionSet)
    (hsub :
      GetHash cfg.messagePrefixLength subsystemName ∉
        st.RepeatedMessageSubsystemExceptionSet)
    (hhash : ∀ o ∈ occs, GetHash cfg.messagePrefixLength o.2 = h)
    (hchain : chainWithinOk cfg e.lastTimeMs occs = true)
    (hfresh : e.printedCount = 0) (hfresh' : e.aggregatedCount = 0)
    (hlen : occs.length = cfg.printedRepeatCount + k)
    (hrec : ¬st.RecentMessageMap.length > cfg.recentMessageCount * 2) :
    ∃ e' : RepeatedMessage,
      (handleRun cfg subsystemName messageLogLevel occs st).1 =
          List.replicate cfg.printedRepeatCount HandleResult.Passed ++
            List.replicate k HandleResult.Aggregated ∧
        (handleRun cfg subsystemName messageLogLevel occs st).2 =
          { st with RepeatedMessageMap := [(h, e')] } ∧
        e'.printedCount = cfg.printedRepeatCount ∧
        e'.aggregatedCount = k ∧
        (∀ T : Int,
          GetLogMillisecondTimeDifference e'.lastTimeMs T >
              cfg.maxDeferrableDetectionTimeMs →
            1 ≤ k →
            Poll cfg { st with RepeatedMessageMap := [(h, e')] } T =
              ({ st with RepeatedMessageMap := [] }, [e'])) ∧
        (∀ T : Int,
          ¬GetLogMillisecondTimeDifference e'.lastTimeMs T >
              cfg.maxDeferrableDetectionTimeMs →
            cfg.maxDeferredMessages ≤ k →
            Poll cfg { st with RepeatedMessageMap := [(h, e')] } T =
              ({ st with
                  RepeatedMessageMap :=
                    [(h,
                      { e' with
                        printedCount := cfg.printedRepeatCount + k
                        aggregatedCount := 0 })] },
                [e'])) := by
  obtain ⟨e', heq, hprint, hagg, hlast, hname, hlvl⟩ :=
    handleRun_repeated_singleton cfg subsystemName messageLogLevel occs st h e hbusy
      hmap hmsg hsub hhash hchain
  have hmin :
      min occs.length (cfg.printedRepeatCount - e.printedCount) =
        cfg.printedRepeatCount := by
    omega
  have hsub2 :
      occs.length - (cfg.printedRepeatCount - e.printedCount) = k := by
    omega
  refine ⟨e', ?_, ?_, by omega, by omega, ?_, ?_⟩
  · have h1 :
        (handleRun cfg subsystemName messageLogLevel occs st).1 =
          List.replicate (min occs.length (cfg.printedRepeatCount - e.printedCount))
              HandleResult.Passed ++
            List.replicate
              (occs.length - (cfg.printedRepeatCount - e.printedCount))
              HandleResult.Aggregated := by
      rw [heq]
    rw [h1, hmin, hsub2]
  · rw [heq]
  · intro T hT hk
    exact
      Poll_singleton_expired cfg { st with RepeatedMessageMap := [(h, e')] } h e' T
        rfl hrec hT (by omega)
  · intro T hT hcap
    have hx :=
      Poll_singleton_capped cfg { st with RepeatedMessageMap := [(h, e')] } h e' T
        rfl hrec hT (by omega)
    rw [hx,
      show e'.printedCount + e'.aggregatedCount = cfg.printedRepeatCount + k by
        omega]

theorem C1_aggregation_lifecycle_witness :
    ∃ e' : RepeatedMessage,
      (handleRun logConfigC1 [65] Level.Info occurrencesC1 managerC1).1 =
          List.replicate logConfigC1.printedRepeatCount HandleResult.Passed ++
            List.replicate 1 HandleResult.Aggregated ∧
        (handleRun logConfigC1 [65] Level.Info occurrencesC1 managerC1).2 =
          { managerC1 with RepeatedMessageMap := [(hashC1, e')] } ∧
        e'.printedCount = logConfigC1.printedRepeatCount ∧
        e'.aggregatedCount = 1 ∧
        (∀ T : Int,
          GetLogMillisecondTimeDifference e'.lastTimeMs T >
              logConfigC1.maxDeferrableDetectionTimeMs →
            1 ≤ 1 →
            Poll logConfigC1 { managerC1 with RepeatedMessageMap := [(hashC1, e')] }
                T =
              ({ managerC1 with RepeatedMessageMap := [] }, [e'])) ∧
        (∀ T : Int,
          ¬GetLogMillisecondTimeDifference e'.lastTimeMs T >
              logConfigC1.maxDeferrableDetectionTimeMs →
            logConfigC1.maxDeferredMessages ≤ 1 →
            Poll logConfigC1 { managerC1 with RepeatedMessageMap := [(hashC1, e')] }
                T =
              ({ managerC1 with
                  RepeatedMessageMap :=
                    [(hashC1,
                      { e' with
                        printedCount := logConfigC1.printedRepeatCount + 1
                        aggregatedCount := 0 })] },
                [e'])) :=
  C1_aggregation_lifecycle logConfigC1 [65] Level.Info occurrencesC1 managerC1 hashC1
    entryC1 1 rfl rfl (by decide) (by decide) (by decide) (by decide) rfl rfl
    (by decide) (by decide)

end ovrlog
